import Mathlib

/-!
Shallow embedding of the booking conflict-prevention and availability-resolution
engine of the guestara-assignment backend: the booking service coordinator
(`createBooking`, `cancelBooking`, `getAvailableSlots`, `calculateAvailableSlots`),
its data-access layer (`findConflictingBookingDao`, `findAvailabilitiesByItemIdDao`,
`findBookingsByItemAndDateDao`, `findBookingById`, `updateBookingStatusDao`,
`createBookingDao`), and the zod input validation (`createBookingSchema`).

Times of day are stored in the source as zero-padded "HH:MM" strings compared
lexicographically, which is order-isomorphic to minute-of-day integers; we embed
them as `Nat` minutes. Booking dates are parsed `Date` values compared for exact
equality and order; we embed them as `Nat` timestamps (UTC midnight of the day).
Mongo ObjectId strings stay `String`; generated reservation ids become a `Nat`
counter. Database state is explicit: the reservation store is a list of booking
records plus the id counter; items and availability rules form a read-only
environment. Mongo transactions abort on every error path of `createBooking`
(the source calls `abortTransaction` before throwing and in the catch-all), so
the embedded operation returns the unchanged store on every error.
-/

namespace Guestara


/-- Day-of-week enum from src/common/types/availibility.ts (SUN..SAT). -/
inductive DayOfWeek where
  | sun | mon | tue | wed | thu | fri | sat
deriving DecidableEq, Repr

/-- Booking status enum from src/common/types/booking.ts. -/
inductive BookingStatus where
  | confirmed
  | cancelled
deriving DecidableEq, Repr

/-- Catalog item, restricted to the two facts the booking engine reads
(`getItem(itemId) -> { exists, isBookable }`): identity and the bookable flag. -/
structure Item where
  id : String
  isBookable : Bool
deriving DecidableEq, Repr

/-- AvailabilityRule record from src/services/availability/schema.ts. -/
structure Availability where
  id : String
  itemId : String
  dayOfWeek : DayOfWeek
  startTime : Nat
  endTime : Nat
  isActive : Bool
deriving DecidableEq, Repr

/-- Booking record from src/services/booking/schema.ts. -/
structure Booking where
  id : Nat
  itemId : String
  bookingDate : Nat
  startTime : Nat
  endTime : Nat
  customerName : String
  customerEmail : Option String
  customerPhone : Option String
  status : BookingStatus
deriving DecidableEq, Repr

/-- CreateBookingDto (validated request body) from
src/services/booking/validation.ts. -/
structure CreateBookingDto where
  itemId : String
  bookingDate : Nat
  startTime : Nat
  endTime : Nat
  customerName : String
  customerEmail : Option String
  customerPhone : Option String
deriving DecidableEq, Repr

/-- Read-only environment: the items collection and the availability_rules
collection. -/
structure Env where
  items : List Item
  rules : List Availability
deriving Repr

/-- The reservation store: the bookings collection plus the id generator. -/
structure St where
  bookings : List Booking
  nextId : Nat
deriving DecidableEq, Repr

/-- Error taxonomy surfaced by the booking service (AppError kinds):
`notFound` (findItemByIdDao / findBookingById, 404), `notBookable`
('Item is not bookable', 400), `outsideAvailability` ('Item not available
on ...', 400), `slotConflict` (ConflictError 409, carrying the conflicting
interval), `alreadyCancelled` ('Booking is already cancelled', 400), and
`saveError` (the generic Error thrown by the Booking schema pre-save hook
when startTime >= endTime). -/
inductive BookingError where
  | notFound
  | notBookable
  | outsideAvailability
  | slotConflict (startTime endTime : Nat)
  | alreadyCancelled
  | saveError
deriving DecidableEq, Repr

/-- getDayOfWeekFromDate from src/services/availability/index.ts:
`days[date.getDay()]` with days = [SUN, MON, TUE, WED, THU, FRI, SAT].
For a date that is `d` whole days after the Unix epoch (a Thursday,
getDay() = 4), `date.getDay() = (d + 4) % 7`. -/
def getDayOfWeekFromDate (d : Nat) : DayOfWeek :=
  [DayOfWeek.sun, DayOfWeek.mon, DayOfWeek.tue, DayOfWeek.wed,
   DayOfWeek.thu, DayOfWeek.fri, DayOfWeek.sat].getD ((d + 4) % 7) DayOfWeek.sun

/-- findItemByIdDao from src/services/items/dao.ts: `ItemModel.findById`,
throwing NotFoundError when absent. -/
def findItemByIdDao (items : List Item) (id : String) : Except BookingError Item :=
  match items.find? (fun it => decide (it.id = id)) with
  | some it => Except.ok it
  | none => Except.error BookingError.notFound

/-- findAvailabilitiesByItemIdDao from src/services/availability/dao.ts:
`AvailabilityModel.find({ itemId, isActive: true })`. -/
def findAvailabilitiesByItemIdDao (rules : List Availability) (itemId : String) :
    List Availability :=
  rules.filter (fun av => decide (av.itemId = itemId) && av.isActive)

/-- The three-clause overlap test of findConflictingBookingDao
(src/services/booking/dao.ts), `$or` over the existing document's
(startTime, endTime) = (bStart, bEnd) against the proposed (pStart, pEnd):
existing starts at or before the proposed start and ends after it; existing
starts before the proposed end and ends at or after it; existing is fully
contained in the proposed interval. -/
def conflictClauses (bStart bEnd pStart pEnd : Nat) : Bool :=
  (decide (bStart ≤ pStart) && decide (bEnd > pStart)) ||
  (decide (bStart < pEnd) && decide (bEnd ≥ pEnd)) ||
  (decide (bStart ≥ pStart) && decide (bEnd ≤ pEnd))

/-- findConflictingBookingDao from src/services/booking/dao.ts:
`BookingModel.findOne({ itemId, bookingDate, status: CONFIRMED, $or: [...] })`. -/
def findConflictingBookingDao (bookings : List Booking) (itemId : String)
    (bookingDate : Nat) (startTime endTime : Nat) : Option Booking :=
  bookings.find? (fun b =>
    decide (b.itemId = itemId) && decide (b.bookingDate = bookingDate) &&
    decide (b.status = BookingStatus.confirmed) &&
    conflictClauses b.startTime b.endTime startTime endTime)

/-- The document built by `BookingModel.create` from the dto fields: a fresh
id and the schema default status CONFIRMED. -/
def newBookingOf (st : St) (data : CreateBookingDto) : Booking :=
  { id := st.nextId, itemId := data.itemId, bookingDate := data.bookingDate,
    startTime := data.startTime, endTime := data.endTime,
    customerName := data.customerName, customerEmail := data.customerEmail,
    customerPhone := data.customerPhone, status := BookingStatus.confirmed }

/-- createBookingDao from src/services/booking/dao.ts: `BookingModel.create`
inside the session. The Booking schema's pre('save') hook
(src/services/booking/schema.ts) throws when `startTime >= endTime`; status
defaults to CONFIRMED. -/
def createBookingDao (st : St) (data : CreateBookingDto) :
    Except BookingError (Booking × St) :=
  if data.startTime ≥ data.endTime then
    Except.error BookingError.saveError
  else
    Except.ok (newBookingOf st data,
      { bookings := st.bookings ++ [newBookingOf st data], nextId := st.nextId + 1 })

/-- findBookingById from src/services/booking/dao.ts: `BookingModel.findById`,
throwing NotFoundError when absent. -/
def findBookingById (bookings : List Booking) (id : Nat) :
    Except BookingError Booking :=
  match bookings.find? (fun b => decide (b.id = id)) with
  | some b => Except.ok b
  | none => Except.error BookingError.notFound

/-- findBookingsByItemAndDateDao from src/services/booking/dao.ts:
`BookingModel.find({ itemId, bookingDate, status: CONFIRMED })`. -/
def findBookingsByItemAndDateDao (bookings : List Booking) (itemId : String)
    (bookingDate : Nat) : List Booking :=
  bookings.filter (fun b =>
    decide (b.itemId = itemId) && decide (b.bookingDate = bookingDate) &&
    decide (b.status = BookingStatus.confirmed))

/-- updateBookingStatusDao from src/services/booking/dao.ts:
`BookingModel.findByIdAndUpdate(id, { status }, { new: true })`, throwing
NotFoundError when absent and otherwise returning the updated document. -/
def updateBookingStatusDao (st : St) (id : Nat) (status : BookingStatus) :
    Except BookingError (Booking × St) :=
  match st.bookings.find? (fun b => decide (b.id = id)) with
  | none => Except.error BookingError.notFound
  | some b =>
      Except.ok ({ b with status := status },
        { bookings :=
            st.bookings.map (fun c => if c.id = id then { c with status := status } else c),
          nextId := st.nextId })

/-- The `dayAvailabilities` filter of createBooking / getAvailableSlots
(src/services/booking/index.ts): the item's availability rules restricted to
the given weekday and the active flag. -/
def dayAvailabilitiesOf (env : Env) (itemId : String) (dayOfWeek : DayOfWeek) :
    List Availability :=
  (findAvailabilitiesByItemIdDao env.rules itemId).filter
    (fun av => decide (av.dayOfWeek = dayOfWeek) && av.isActive)

/-- The `isWithinAvailability` check of createBooking
(src/services/booking/index.ts): some rule of the booking date's weekday
contains the proposed interval (`startTime >= av.startTime && endTime <=
av.endTime`). -/
def isWithinAvailability (env : Env) (data : CreateBookingDto) : Bool :=
  (dayAvailabilitiesOf env data.itemId (getDayOfWeekFromDate data.bookingDate)).any
    (fun av => decide (data.startTime ≥ av.startTime) && decide (data.endTime ≤ av.endTime))

/-- createBooking from src/services/booking/index.ts: fetch the item (NotFound
if absent), reject non-bookable items, filter the item's availability rules to
the booking date's weekday and the active flag, require the proposed interval
to be contained in at least one such rule window (`isWithinAvailability`),
then — inside the Mongo transaction — scan for a conflicting CONFIRMED booking
(abort + ConflictError naming the conflicting interval on a match) and insert
the new CONFIRMED record. Every error path aborts the transaction, so the
store is returned unchanged there. -/
def createBooking (env : Env) (st : St) (data : CreateBookingDto) :
    Except BookingError Booking × St :=
  match findItemByIdDao env.items data.itemId with
  | Except.error e => (Except.error e, st)
  | Except.ok item =>
    if !item.isBookable then
      (Except.error BookingError.notBookable, st)
    else if !(isWithinAvailability env data) then
      (Except.error BookingError.outsideAvailability, st)
    else
      match findConflictingBookingDao st.bookings data.itemId data.bookingDate
          data.startTime data.endTime with
      | some conflict =>
          (Except.error (BookingError.slotConflict conflict.startTime conflict.endTime), st)
      | none =>
          match createBookingDao st data with
          | Except.error e => (Except.error e, st)
          | Except.ok (booking, st') => (Except.ok booking, st')

/-- cancelBooking from src/services/booking/index.ts: look the booking up by id
(NotFound if absent), reject when the status is already CANCELLED, otherwise
update the status to CANCELLED and return the updated record. -/
def cancelBooking (st : St) (id : Nat) : Except BookingError Booking × St :=
  match findBookingById st.bookings id with
  | Except.error e => (Except.error e, st)
  | Except.ok booking =>
    if booking.status = BookingStatus.cancelled then
      (Except.error BookingError.alreadyCancelled, st)
    else
      match updateBookingStatusDao st id BookingStatus.cancelled with
      | Except.error e => (Except.error e, st)
      | Except.ok (updated, st') => (Except.ok updated, st')

/-- A bare (startTime, endTime) window, as reported in availableSlots. -/
structure Slot where
  startTime : Nat
  endTime : Nat
deriving DecidableEq, Repr

/-- A booked slot entry of the available-slots response. -/
structure BookedSlot where
  startTime : Nat
  endTime : Nat
  customerName : String
deriving DecidableEq, Repr

/-- AvailableSlotsResponse from src/common/types/booking.ts. -/
structure AvailableSlotsResponse where
  itemId : String
  date : Nat
  dayOfWeek : DayOfWeek
  availabilityRules : List Slot
  bookedSlots : List BookedSlot
  availableSlots : List Slot
deriving DecidableEq, Repr

/-- The inline overlap test of calculateAvailableSlots
(src/services/booking/index.ts): booking b conflicts with availability window
av iff b starts inside av, or b ends inside av (half-open), or b covers av. -/
def slotOverlapTest (avStart avEnd bStart bEnd : Nat) : Bool :=
  (decide (bStart ≥ avStart) && decide (bStart < avEnd)) ||
  (decide (bEnd > avStart) && decide (bEnd ≤ avEnd)) ||
  (decide (bStart ≤ avStart) && decide (bEnd ≥ avEnd))

/-- calculateAvailableSlots from src/services/booking/index.ts: keep exactly
those availability windows (whole, never split) that no booking of the list
overlaps under the inline three-clause test. -/
def calculateAvailableSlots (availabilities : List Slot) (bookings : List Slot) :
    List Slot :=
  availabilities.filter (fun av =>
    !(bookings.any (fun b => slotOverlapTest av.startTime av.endTime b.startTime b.endTime)))

/-- getAvailableSlots from src/services/booking/index.ts: fetch the item
(NotFound if absent), reject non-bookable items, filter the item's active rules
to the date's weekday; when none remain, return the all-empty response; else
fetch the date's CONFIRMED bookings and report rule windows, booked slots, and
the free whole windows computed by calculateAvailableSlots. -/
def getAvailableSlots (env : Env) (st : St) (itemId : String) (date : Nat) :
    Except BookingError AvailableSlotsResponse :=
  match findItemByIdDao env.items itemId with
  | Except.error e => Except.error e
  | Except.ok item =>
    if !item.isBookable then
      Except.error BookingError.notBookable
    else
      let dayOfWeek := getDayOfWeekFromDate date
      let dayAvailabilities := dayAvailabilitiesOf env itemId dayOfWeek
      if dayAvailabilities.isEmpty then
        Except.ok { itemId := itemId, date := date, dayOfWeek := dayOfWeek,
                    availabilityRules := [], bookedSlots := [], availableSlots := [] }
      else
        let bookings := findBookingsByItemAndDateDao st.bookings itemId date
        Except.ok
          { itemId := itemId, date := date, dayOfWeek := dayOfWeek,
            availabilityRules := dayAvailabilities.map
              (fun av => { startTime := av.startTime, endTime := av.endTime }),
            bookedSlots := bookings.map
              (fun b => { startTime := b.startTime, endTime := b.endTime,
                          customerName := b.customerName }),
            availableSlots := calculateAvailableSlots
              (dayAvailabilities.map (fun av => { startTime := av.startTime, endTime := av.endTime }))
              (bookings.map (fun b => { startTime := b.startTime, endTime := b.endTime })) }

/-- Validation issues raised by createBookingSchema
(src/services/booking/validation.ts). `invalidRange` is the refine message
'startTime must be before endTime'; `pastDate` is the refine message
'Cannot book dates in the past'. -/
inductive ValidationIssue where
  | invalidRange
  | pastDate
deriving DecidableEq, Repr

/-- The refinement checks of createBookingSchema
(src/services/booking/validation.ts). The field-level shape checks (ObjectId,
"YYYY-MM-DD", "HH:MM" regexes, non-empty customerName) are absorbed by the
types of `CreateBookingDto`; zod runs both chained `.refine` checks and
collects every failing issue. `todayMidnight` is the timestamp computed by
`today.setHours(0, 0, 0, 0)`. The past-date refine accepts iff the parsed
bookingDate is `>= todayMidnight`. -/
def createBookingSchemaIssues (todayMidnight : Nat) (data : CreateBookingDto) :
    List ValidationIssue :=
  (if data.startTime ≥ data.endTime then [ValidationIssue.invalidRange] else []) ++
  (if data.bookingDate < todayMidnight then [ValidationIssue.pastDate] else [])

/-- Outcome of a POST /booking request at the route boundary
(src/route/booking.ts): `validateRequest(createBookingSchema)` either rejects
with the collected issues before the service runs, or passes the validated dto
to `createBooking`. -/
inductive RouteResult where
  | validationFailed (issues : List ValidationIssue)
  | serviceFailed (e : BookingError)
  | success (b : Booking)
deriving DecidableEq, Repr

/-- The route pipeline for createBooking: validation middleware first, the
coordinator only on a clean pass; a validation failure never touches the
reservation store. -/
def routeCreateBooking (todayMidnight : Nat) (env : Env) (st : St)
    (data : CreateBookingDto) : RouteResult × St :=
  match createBookingSchemaIssues todayMidnight data with
  | [] =>
      match createBooking env st data with
      | (Except.error e, st') => (RouteResult.serviceFailed e, st')
      | (Except.ok b, st') => (RouteResult.success b, st')
  | issues => (RouteResult.validationFailed issues, st)

/-- Standard half-open overlap of [s₁, e₁) and [s₂, e₂). -/
def intervalsOverlap (s₁ e₁ s₂ e₂ : Nat) : Prop :=
  s₁ < e₂ ∧ s₂ < e₁

/-- Half-open mutual exclusion: among the bookings of the store, any two
distinct records that share an (itemId, bookingDate) pair and are both
CONFIRMED have non-overlapping [startTime, endTime) intervals. -/
def ConfirmedDisjoint (st : St) : Prop :=
  st.bookings.Pairwise (fun a b =>
    a.itemId = b.itemId → a.bookingDate = b.bookingDate →
    a.status = BookingStatus.confirmed → b.status = BookingStatus.confirmed →
    ¬ intervalsOverlap a.startTime a.endTime b.startTime b.endTime)

/-- Store invariant: every record has a proper interval (enforced by the
Booking schema pre-save hook on every insert) and the CONFIRMED records are
pairwise disjoint per (itemId, bookingDate). -/
def StoreInv (st : St) : Prop :=
  (∀ b ∈ st.bookings, b.startTime < b.endTime) ∧ ConfirmedDisjoint st

/-- Reachable reservation-store states: the empty store, closed under the two
mutating operations of the booking service (each applied with any argument,
keeping whatever store the operation returns — unchanged on failure). -/
inductive Reachable (env : Env) : St → Prop where
  | init : Reachable env { bookings := [], nextId := 0 }
  | create (st : St) (data : CreateBookingDto) :
      Reachable env st → Reachable env (createBooking env st data).2
  | cancel (st : St) (id : Nat) :
      Reachable env st → Reachable env (cancelBooking st id).2

/-! Concrete fixtures mirroring the spec's scenario 1–6 setup: a bookable item
`"x"` with one active Monday rule 09:00–17:00 (540–1020 minutes); date 4
(1970-01-05) is a Monday and date 5 a Tuesday. -/

/-- Fixture: the bookable item X. -/
def itemX : Item := { id := "x", isBookable := true }

/-- Fixture: active MON 09:00–17:00 rule for item X. -/
def ruleMon : Availability :=
  { id := "r1", itemId := "x", dayOfWeek := DayOfWeek.mon,
    startTime := 540, endTime := 1020, isActive := true }

/-- Fixture environment: item X with its Monday rule. -/
def envW : Env := { items := [itemX], rules := [ruleMon] }

/-- Fixture: the empty reservation store. -/
def emptySt : St := { bookings := [], nextId := 0 }

/-- Fixture: a CONFIRMED 11:00–13:00 booking of item X on the Monday. -/
def bookingA : Booking :=
  { id := 7, itemId := "x", bookingDate := 4, startTime := 660, endTime := 780,
    customerName := "A", customerEmail := none, customerPhone := none,
    status := BookingStatus.confirmed }

/-- Fixture store holding only `bookingA`. -/
def stA : St := { bookings := [bookingA], nextId := 8 }

/-- Fixture request: item X, the Monday, 10:00–11:00. -/
def dtoJohn : CreateBookingDto :=
  { itemId := "x", bookingDate := 4, startTime := 600, endTime := 660,
    customerName := "John", customerEmail := none, customerPhone := none }

/-- Fixture request: item X on the Tuesday (no rule for that weekday). -/
def dtoTue : CreateBookingDto :=
  { itemId := "x", bookingDate := 5, startTime := 600, endTime := 660,
    customerName := "John", customerEmail := none, customerPhone := none }

/-- Fixture request: inverted range 12:00–10:00 inside the Monday window. -/
def dtoInv : CreateBookingDto :=
  { itemId := "x", bookingDate := 4, startTime := 720, endTime := 600,
    customerName := "B", customerEmail := none, customerPhone := none }

/-- Fixture request: 13:00–14:00, adjacent to `bookingA` on its right. -/
def dtoAdj : CreateBookingDto :=
  { itemId := "x", bookingDate := 4, startTime := 780, endTime := 840,
    customerName := "Jane", customerEmail := none, customerPhone := none }

/-- Fixture request: the identical 11:00–13:00 interval of `bookingA`,
requested again by Jane. -/
def dtoSame : CreateBookingDto :=
  { itemId := "x", bookingDate := 4, startTime := 660, endTime := 780,
    customerName := "Jane", customerEmail := none, customerPhone := none }

/-! Helper lemmas shared by the claim theorems. -/

/-- A standard half-open overlap of a proposed interval with an existing one
always trips the three-clause `$or` of findConflictingBookingDao, with no
well-formedness assumption on either interval. -/
lemma overlap_imp_conflictClauses {bStart bEnd pStart pEnd : Nat}
    (h₁ : pStart < bEnd) (h₂ : bStart < pEnd) :
    conflictClauses bStart bEnd pStart pEnd = true := by
  simp only [conflictClauses, Bool.or_eq_true, Bool.and_eq_true, decide_eq_true_eq]
  omega

/-- For well-formed intervals, the three-clause `$or` of
findConflictingBookingDao is exactly standard half-open overlap. -/
lemma conflictClauses_iff {bStart bEnd pStart pEnd : Nat}
    (hb : bStart < bEnd) (hp : pStart < pEnd) :
    conflictClauses bStart bEnd pStart pEnd = true ↔
      (pStart < bEnd ∧ bStart < pEnd) := by
  simp only [conflictClauses, Bool.or_eq_true, Bool.and_eq_true, decide_eq_true_eq]
  omega

/-- For well-formed intervals, the inline three-clause test of
calculateAvailableSlots is exactly standard half-open overlap. -/
lemma slotOverlapTest_iff {avStart avEnd bStart bEnd : Nat}
    (hav : avStart < avEnd) (hb : bStart < bEnd) :
    slotOverlapTest avStart avEnd bStart bEnd = true ↔
      (avStart < bEnd ∧ bStart < avEnd) := by
  simp only [slotOverlapTest, Bool.or_eq_true, Bool.and_eq_true, decide_eq_true_eq]
  omega

/-- The availability gate of createBooking, spelled out: some rule of the
environment for this item is active, matches the booking date's weekday, and
contains the proposed interval. -/
lemma isWithinAvailability_iff (env : Env) (data : CreateBookingDto) :
    isWithinAvailability env data = true ↔
      ∃ av ∈ env.rules, av.itemId = data.itemId ∧ av.isActive = true ∧
        av.dayOfWeek = getDayOfWeekFromDate data.bookingDate ∧
        data.startTime ≥ av.startTime ∧ data.endTime ≤ av.endTime := by
  simp only [isWithinAvailability, dayAvailabilitiesOf, findAvailabilitiesByItemIdDao,
    List.any_eq_true, List.mem_filter, Bool.and_eq_true, decide_eq_true_eq, ge_iff_le]
  constructor
  · rintro ⟨av, ⟨⟨hmem, hitem, hact⟩, hday, -⟩, hs, he⟩
    exact ⟨av, hmem, hitem, hact, hday, hs, he⟩
  · rintro ⟨av, hmem, hitem, hact, hday, hs, he⟩
    exact ⟨av, ⟨⟨hmem, hitem, hact⟩, hday, hact⟩, hs, he⟩

/-- The conflict scan comes back empty exactly when no stored CONFIRMED
booking of the same item and date trips the three-clause test against the
proposed interval. -/
lemma findConflictingBookingDao_eq_none_iff (bookings : List Booking)
    (itemId : String) (bookingDate : Nat) (startTime endTime : Nat) :
    findConflictingBookingDao bookings itemId bookingDate startTime endTime = none ↔
      ∀ b ∈ bookings, b.itemId = itemId → b.bookingDate = bookingDate →
        b.status = BookingStatus.confirmed →
        conflictClauses b.startTime b.endTime startTime endTime = false := by
  simp only [findConflictingBookingDao, List.find?_eq_none, Bool.and_eq_true,
    decide_eq_true_eq, not_and, Bool.not_eq_true]
  constructor
  · intro h b hb hitem hdate hst
    have := h b hb
    simp only [hitem, hdate, hst, decide_True, Bool.true_and] at this
    simpa using this
  · intro h b hb
    by_cases hitem : b.itemId = itemId
    · by_cases hdate : b.bookingDate = bookingDate
      · by_cases hst : b.status = BookingStatus.confirmed
        · simp [hitem, hdate, hst, h b hb hitem hdate hst]
        · simp [hst]
      · simp [hdate]
    · simp [hitem]

/-- Exhaustive shape of `createBooking`: either some precondition or the
conflict scan or the pre-save hook failed and the store is returned untouched,
or every gate passed, the scan was clean, the proposed range is proper, and
the new CONFIRMED document is appended. -/
lemma createBooking_spec (env : Env) (st : St) (data : CreateBookingDto) :
    (∃ e, createBooking env st data = (Except.error e, st)) ∨
    (createBooking env st data = (Except.ok (newBookingOf st data),
        { bookings := st.bookings ++ [newBookingOf st data], nextId := st.nextId + 1 }) ∧
      findConflictingBookingDao st.bookings data.itemId data.bookingDate
        data.startTime data.endTime = none ∧
      data.startTime < data.endTime) := by
  unfold createBooking
  cases hit : findItemByIdDao env.items data.itemId with
  | error e => exact Or.inl ⟨e, rfl⟩
  | ok item =>
    cases hbk : item.isBookable with
    | false => exact Or.inl ⟨BookingError.notBookable, by simp [hbk]⟩
    | true =>
      cases hav : isWithinAvailability env data with
      | false => exact Or.inl ⟨BookingError.outsideAvailability, by simp [hbk, hav]⟩
      | true =>
        cases hc : findConflictingBookingDao st.bookings data.itemId data.bookingDate
            data.startTime data.endTime with
        | some conflict =>
            exact Or.inl ⟨BookingError.slotConflict conflict.startTime conflict.endTime,
              by simp [hbk, hav]⟩
        | none =>
          unfold createBookingDao
          by_cases hr : data.startTime ≥ data.endTime
          · exact Or.inl ⟨BookingError.saveError, by simp [hbk, hav, hr]⟩
          · refine Or.inr ⟨by simp [hbk, hav, hr], rfl, by omega⟩

/-- Success evaluation of `createBooking`: with the item fetched and bookable,
the availability gate passed, a clean conflict scan and a proper range, the
call commits and appends the new CONFIRMED document. -/
lemma createBooking_ok_intro (env : Env) (st : St) (data : CreateBookingDto)
    (item : Item) (hit : findItemByIdDao env.items data.itemId = Except.ok item)
    (hbk : item.isBookable = true) (hav : isWithinAvailability env data = true)
    (hc : findConflictingBookingDao st.bookings data.itemId data.bookingDate
        data.startTime data.endTime = none)
    (hr : data.startTime < data.endTime) :
    createBooking env st data = (Except.ok (newBookingOf st data),
      { bookings := st.bookings ++ [newBookingOf st data], nextId := st.nextId + 1 }) := by
  unfold createBooking createBookingDao
  rw [hit]
  simp [hbk, hav, hc, Nat.not_le.mpr hr]

/-- Exhaustive shape of `cancelBooking`: lookup failure or an already
cancelled record leave the store untouched; otherwise the first record with
the id is CONFIRMED, and the call returns it with status CANCELLED and
updates the store in place. -/
lemma cancelBooking_spec (st : St) (id : Nat) :
    (cancelBooking st id = (Except.error BookingError.notFound, st) ∧
      st.bookings.find? (fun b => decide (b.id = id)) = none) ∨
    (∃ b, st.bookings.find? (fun b => decide (b.id = id)) = some b ∧
      b.status = BookingStatus.cancelled ∧
      cancelBooking st id = (Except.error BookingError.alreadyCancelled, st)) ∨
    (∃ b, st.bookings.find? (fun b => decide (b.id = id)) = some b ∧
      b.status = BookingStatus.confirmed ∧
      cancelBooking st id = (Except.ok { b with status := BookingStatus.cancelled },
        { bookings := st.bookings.map
            (fun c => if c.id = id then { c with status := BookingStatus.cancelled } else c),
          nextId := st.nextId })) := by
  unfold cancelBooking findBookingById updateBookingStatusDao
  cases hf : st.bookings.find? (fun b => decide (b.id = id)) with
  | none => exact Or.inl ⟨rfl, rfl⟩
  | some b =>
    cases hst : b.status with
    | cancelled => exact Or.inr (Or.inl ⟨b, rfl, hst, by simp [hst]⟩)
    | confirmed => exact Or.inr (Or.inr ⟨b, rfl, hst, by simp [hst]⟩)

/-- `createBooking` preserves the half-open mutual-exclusion invariant:
either it fails and the store is untouched, or the conflict scan vouched that
the appended interval overlaps no stored CONFIRMED booking of its key. -/
lemma confirmedDisjoint_create (env : Env) (st : St) (data : CreateBookingDto)
    (h : ConfirmedDisjoint st) : ConfirmedDisjoint (createBooking env st data).2 := by
  rcases createBooking_spec env st data with ⟨e, heq⟩ | ⟨heq, hnone, hrange⟩
  · rw [heq]; exact h
  · rw [heq]
    unfold ConfirmedDisjoint at h ⊢
    rw [List.pairwise_append]
    refine ⟨h, List.pairwise_singleton _ _, ?_⟩
    intro a ha b hb
    simp only [List.mem_singleton] at hb
    subst hb
    intro hitem hdate hsa hsb hov
    simp only [newBookingOf, intervalsOverlap] at hov
    have hfalse := (findConflictingBookingDao_eq_none_iff st.bookings data.itemId
        data.bookingDate data.startTime data.endTime).mp hnone a ha
        (by simpa [newBookingOf] using hitem) (by simpa [newBookingOf] using hdate) hsa
    have htrue := overlap_imp_conflictClauses hov.2 hov.1
    rw [hfalse] at htrue
    exact Bool.false_ne_true htrue

/-- `cancelBooking` preserves the half-open mutual-exclusion invariant: it
either leaves the store untouched or moves one record out of the CONFIRMED
set without changing any interval. -/
lemma confirmedDisjoint_cancel (st : St) (id : Nat)
    (h : ConfirmedDisjoint st) : ConfirmedDisjoint (cancelBooking st id).2 := by
  rcases cancelBooking_spec st id with ⟨heq, -⟩ | ⟨b, -, -, heq⟩ | ⟨b, -, -, heq⟩ <;> rw [heq]
  · exact h
  · exact h
  · unfold ConfirmedDisjoint at h ⊢
    rw [List.pairwise_map]
    refine h.imp ?_
    intro a c hR hitem hdate hsa hsc
    by_cases ha : a.id = id
    · simp [ha] at hsa
    · by_cases hc : c.id = id
      · simp [hc] at hsc
      · simp only [ha, hc, if_neg, if_false] at hitem hdate hsa hsc ⊢
        exact hR hitem hdate hsa hsc

/-- C1: in every reachable state of the reservation store and for every
(itemId, bookingDate) pair, the [startTime, endTime) intervals of CONFIRMED
reservations of that pair are pairwise non-overlapping under half-open
semantics, and both mutating operations of the booking service
(createBooking, cancelBooking) preserve this invariant. -/
theorem confirmed_bookings_pairwise_disjoint :
    (∀ (env : Env) (st : St), Reachable env st → ConfirmedDisjoint st) ∧
    (∀ (env : Env) (st : St) (data : CreateBookingDto),
      ConfirmedDisjoint st → ConfirmedDisjoint (createBooking env st data).2) ∧
    (∀ (st : St) (id : Nat),
      ConfirmedDisjoint st → ConfirmedDisjoint (cancelBooking st id).2) := by
  refine ⟨?_, confirmedDisjoint_create, confirmedDisjoint_cancel⟩
  intro env st h
  induction h with
  | init => exact List.Pairwise.nil
  | create st data _ ih => exact confirmedDisjoint_create _ _ _ ih
  | cancel st id _ ih => exact confirmedDisjoint_cancel _ _ ih

/-- Witness for C1: the invariant evaluated on the store reached by booking
10:00–11:00 on the Monday from the empty store. -/
theorem confirmed_bookings_pairwise_disjoint_witness :
    ConfirmedDisjoint (createBooking envW emptySt dtoJohn).2 :=
  confirmed_bookings_pairwise_disjoint.1 envW _
    (Reachable.create emptySt dtoJohn Reachable.init)

/-- C2: on an existing bookable item, createBooking fails with
OutsideAvailability exactly when no single active rule of the item whose
dayOfWeek is the booking date's weekday contains the proposed interval
(startTime >= r.startTime and endTime <= r.endTime); in particular a weekday
with zero active rules fails this way, as does an interval spanning a gap
between two adjacent windows. -/
theorem createBooking_outsideAvailability_iff (env : Env) (st : St)
    (data : CreateBookingDto) (item : Item)
    (hit : findItemByIdDao env.items data.itemId = Except.ok item)
    (hbk : item.isBookable = true) :
    (createBooking env st data).1 = Except.error BookingError.outsideAvailability ↔
      ¬ ∃ av ∈ env.rules, av.itemId = data.itemId ∧ av.isActive = true ∧
          av.dayOfWeek = getDayOfWeekFromDate data.bookingDate ∧
          data.startTime ≥ av.startTime ∧ data.endTime ≤ av.endTime := by
  have hiff := isWithinAvailability_iff env data
  cases hav : isWithinAvailability env data with
  | false =>
      have hno : ¬ ∃ av ∈ env.rules, av.itemId = data.itemId ∧ av.isActive = true ∧
          av.dayOfWeek = getDayOfWeekFromDate data.bookingDate ∧
          data.startTime ≥ av.startTime ∧ data.endTime ≤ av.endTime :=
        fun hx => by simpa [hav] using hiff.mpr hx
      refine iff_of_true ?_ hno
      unfold createBooking
      rw [hit]
      simp [hbk, hav]
  | true =>
      refine iff_of_false ?_ (not_not_intro (hiff.mp hav))
      unfold createBooking
      rw [hit]
      simp only [hbk, hav, Bool.not_true, Bool.false_eq_true, if_false]
      cases hc : findConflictingBookingDao st.bookings data.itemId data.bookingDate
          data.startTime data.endTime with
      | some c => simp
      | none =>
          unfold createBookingDao
          by_cases hr : data.startTime ≥ data.endTime <;> simp [hr]

/-- Witness for C2: the Tuesday request against the Monday-only rule set. -/
theorem createBooking_outsideAvailability_iff_witness :
    (createBooking envW emptySt dtoTue).1 = Except.error BookingError.outsideAvailability ↔
      ¬ ∃ av ∈ envW.rules, av.itemId = dtoTue.itemId ∧ av.isActive = true ∧
          av.dayOfWeek = getDayOfWeekFromDate dtoTue.bookingDate ∧
          dtoTue.startTime ≥ av.startTime ∧ dtoTue.endTime ≤ av.endTime :=
  createBooking_outsideAvailability_iff envW emptySt dtoTue itemX rfl rfl

/-- C3: every failing createBooking call leaves the reservation store exactly
as it was (the transaction aborts before anything is persisted), and a new
CONFIRMED record is appended exactly when the call returns successfully. -/
theorem createBooking_failure_leaves_store (env : Env) (st : St)
    (data : CreateBookingDto) :
    (∀ e, (createBooking env st data).1 = Except.error e →
      (createBooking env st data).2 = st) ∧
    (∀ b, (createBooking env st data).1 = Except.ok b →
      b.status = BookingStatus.confirmed ∧
      (createBooking env st data).2.bookings = st.bookings ++ [b]) := by
  rcases createBooking_spec env st data with ⟨e, heq⟩ | ⟨heq, -, -⟩
  · rw [heq]
    exact ⟨fun e' _ => rfl, fun b hb => by simp at hb⟩
  · rw [heq]
    refine ⟨fun e' he' => by simp at he', fun b hb => ?_⟩
    obtain rfl : newBookingOf st data = b := by simpa using hb
    exact ⟨rfl, rfl⟩

/-- Witness for C3: the failing Tuesday request leaves the empty store
untouched. -/
theorem createBooking_failure_leaves_store_witness :
    (createBooking envW emptySt dtoTue).2 = emptySt :=
  (createBooking_failure_leaves_store envW emptySt dtoTue).1
    BookingError.outsideAvailability rfl

/-- C5: for proper intervals, the three-clause disjunction used by the
conflict query (existing interval (xStart, xEnd) against proposed
(pStart, pEnd)) and the symmetric instance used by the slot calculator are
each equivalent to the standard half-open overlap predicate
pStart < xEnd and xStart < pEnd. -/
theorem overlap_clauses_equiv_halfopen (pStart pEnd xStart xEnd : Nat)
    (hp : pStart < pEnd) (hx : xStart < xEnd) :
    (conflictClauses xStart xEnd pStart pEnd = true ↔
      (pStart < xEnd ∧ xStart < pEnd)) ∧
    (slotOverlapTest pStart pEnd xStart xEnd = true ↔
      (pStart < xEnd ∧ xStart < pEnd)) :=
  ⟨conflictClauses_iff hx hp, slotOverlapTest_iff hp hx⟩

/-- Witness for C5: the Monday window 09:00–17:00 against 10:00–11:00. -/
theorem overlap_clauses_equiv_halfopen_witness :
    (540 : Nat) < 1020 ∧ (600 : Nat) < 660 ∧
    ((conflictClauses 600 660 540 1020 = true ↔
        ((540 : Nat) < 660 ∧ (600 : Nat) < 1020)) ∧
     (slotOverlapTest 540 1020 600 660 = true ↔
        ((540 : Nat) < 660 ∧ (600 : Nat) < 1020))) :=
  ⟨by decide, by decide,
    overlap_clauses_equiv_halfopen 540 1020 600 660 (by decide) (by decide)⟩

/-- Touching intervals never trip the three-clause conflict test: for proper
intervals, a proposed interval that starts exactly at the existing end or ends
exactly at the existing start satisfies none of the clauses. -/
lemma conflictClauses_adjacent_false {bStart bEnd pStart pEnd : Nat}
    (hb : bStart < bEnd) (hp : pStart < pEnd)
    (hadj : pStart = bEnd ∨ pEnd = bStart) :
    conflictClauses bStart bEnd pStart pEnd = false := by
  refine Bool.eq_false_iff.mpr (fun htrue => ?_)
  simp only [conflictClauses, Bool.or_eq_true, Bool.and_eq_true,
    decide_eq_true_eq] at htrue
  omega

/-- C4: in a state whose only CONFIRMED reservation for the key is R (a
proper interval), a createBooking call for the same item and date whose
proper interval touches R without overlapping it (startTime = R.endTime or
endTime = R.startTime), and which lies within availability on a bookable
item, succeeds: the three conflict clauses are all false for the adjacent
interval, and both bookings coexist as CONFIRMED in the resulting store. -/
theorem adjacent_booking_succeeds (env : Env) (st : St) (data : CreateBookingDto)
    (R : Booking) (item : Item)
    (hit : findItemByIdDao env.items data.itemId = Except.ok item)
    (hbk : item.isBookable = true)
    (hav : ∃ av ∈ env.rules, av.itemId = data.itemId ∧ av.isActive = true ∧
        av.dayOfWeek = getDayOfWeekFromDate data.bookingDate ∧
        data.startTime ≥ av.startTime ∧ data.endTime ≤ av.endTime)
    (hR : R ∈ st.bookings) (hRstatus : R.status = BookingStatus.confirmed)
    (hRrange : R.startTime < R.endTime)
    (hrange : data.startTime < data.endTime)
    (hadj : data.startTime = R.endTime ∨ data.endTime = R.startTime)
    (honly : ∀ b ∈ st.bookings, b.status = BookingStatus.confirmed →
      b.itemId = data.itemId → b.bookingDate = data.bookingDate → b = R) :
    ∃ bk, (createBooking env st data).1 = Except.ok bk ∧
      bk.status = BookingStatus.confirmed ∧
      bk ∈ (createBooking env st data).2.bookings ∧
      R ∈ (createBooking env st data).2.bookings ∧
      R.status = BookingStatus.confirmed := by
  have hnone : findConflictingBookingDao st.bookings data.itemId data.bookingDate
      data.startTime data.endTime = none := by
    rw [findConflictingBookingDao_eq_none_iff]
    intro b hb hbitem hbdate hbstatus
    have hbR : b = R := honly b hb hbstatus hbitem hbdate
    subst hbR
    exact conflictClauses_adjacent_false hRrange hrange hadj
  have heq := createBooking_ok_intro env st data item hit hbk
    ((isWithinAvailability_iff env data).mpr hav) hnone hrange
  refine ⟨newBookingOf st data, by rw [heq], rfl, ?_, ?_, hRstatus⟩
  · rw [heq]
    exact List.mem_append_right _ (List.mem_singleton_self _)
  · rw [heq]
    exact List.mem_append_left _ hR

/-- Witness for C4: booking 13:00–14:00 right after the confirmed 11:00–13:00
record on the same Monday; both end up CONFIRMED. -/
theorem adjacent_booking_succeeds_witness :
    ∃ bk, (createBooking envW stA dtoAdj).1 = Except.ok bk ∧
      bk.status = BookingStatus.confirmed ∧
      bk ∈ (createBooking envW stA dtoAdj).2.bookings ∧
      bookingA ∈ (createBooking envW stA dtoAdj).2.bookings ∧
      bookingA.status = BookingStatus.confirmed :=
  adjacent_booking_succeeds envW stA dtoAdj bookingA itemX rfl rfl
    (by decide) (by decide) rfl (by decide) (by decide) (by decide) (by decide)

/-- C6: cancelBooking fails with NotFound exactly when no reservation has the
id; fails with AlreadyCancelled exactly when the reservation with the id has
status CANCELLED; and otherwise sets that reservation's status to CANCELLED,
changing no other field of the returned record and no other record of the
store. Stated for stores with unique ids (Mongo `_id` is a key). -/
theorem cancelBooking_semantics (st : St) (id : Nat)
    (huniq : ∀ b₁ ∈ st.bookings, ∀ b₂ ∈ st.bookings, b₁.id = b₂.id → b₁ = b₂) :
    ((cancelBooking st id).1 = Except.error BookingError.notFound ↔
      ∀ b ∈ st.bookings, b.id ≠ id) ∧
    ((cancelBooking st id).1 = Except.error BookingError.alreadyCancelled ↔
      ∃ b ∈ st.bookings, b.id = id ∧ b.status = BookingStatus.cancelled) ∧
    (∀ b ∈ st.bookings, b.id = id → b.status = BookingStatus.confirmed →
      (cancelBooking st id).1 = Except.ok { b with status := BookingStatus.cancelled } ∧
      (cancelBooking st id).2.bookings = st.bookings.map
        (fun c => if c.id = id then { c with status := BookingStatus.cancelled } else c)) := by
  rcases cancelBooking_spec st id with ⟨heq, hf⟩ | ⟨b₀, hf, hst₀, heq⟩ | ⟨b₀, hf, hst₀, heq⟩
  · have hnone : ∀ b ∈ st.bookings, b.id ≠ id := by
      intro b hb
      have := List.find?_eq_none.mp hf b hb
      simpa using this
    refine ⟨iff_of_true (by rw [heq]) hnone, iff_of_false (by rw [heq]; simp) ?_, ?_⟩
    · rintro ⟨b, hb, hid, -⟩
      exact hnone b hb hid
    · intro b hb hid _
      exact absurd hid (hnone b hb)
  · have hmem := List.mem_of_find?_eq_some hf
    have hid₀ : b₀.id = id := by simpa using List.find?_some hf
    refine ⟨iff_of_false (by rw [heq]; simp) (fun hall => hall b₀ hmem hid₀),
      iff_of_true (by rw [heq]) ⟨b₀, hmem, hid₀, hst₀⟩, ?_⟩
    intro b hb hid hconf
    have hbb : b = b₀ := huniq b hb b₀ hmem (hid.trans hid₀.symm)
    rw [hbb, hst₀] at hconf
    exact absurd hconf (by decide)
  · have hmem := List.mem_of_find?_eq_some hf
    have hid₀ : b₀.id = id := by simpa using List.find?_some hf
    refine ⟨iff_of_false (by rw [heq]; simp) (fun hall => hall b₀ hmem hid₀),
      iff_of_false (by rw [heq]; simp) ?_, ?_⟩
    · rintro ⟨b, hb, hid, hcanc⟩
      have hbb : b = b₀ := huniq b hb b₀ hmem (hid.trans hid₀.symm)
      rw [hbb, hst₀] at hcanc
      exact absurd hcanc (by decide)
    · intro b hb hid hconf
      have hbb : b = b₀ := huniq b hb b₀ hmem (hid.trans hid₀.symm)
      subst hbb
      exact ⟨by rw [heq], by rw [heq]⟩

/-- Witness for C6: cancelling the confirmed 11:00–13:00 booking flips only
its status. -/
theorem cancelBooking_semantics_witness :
    (cancelBooking stA 7).1 =
      Except.ok { bookingA with status := BookingStatus.cancelled } ∧
    (cancelBooking stA 7).2.bookings = stA.bookings.map
      (fun c => if c.id = 7 then { c with status := BookingStatus.cancelled } else c) :=
  (cancelBooking_semantics stA 7 (by decide)).2.2 bookingA (by decide) rfl rfl

/-- C7: when the only CONFIRMED reservation of the store that trips the
conflict test against a proposed proper interval on (itemId, date) is R,
cancelling R succeeds and an immediately following createBooking for the
identical item, date, and interval succeeds: the conflict scan filters on
status CONFIRMED, so the cancelled record no longer counts. -/
theorem cancel_then_rebook_succeeds (env : Env) (st : St) (data : CreateBookingDto)
    (R : Booking) (item : Item)
    (hit : findItemByIdDao env.items data.itemId = Except.ok item)
    (hbk : item.isBookable = true)
    (hav : ∃ av ∈ env.rules, av.itemId = data.itemId ∧ av.isActive = true ∧
        av.dayOfWeek = getDayOfWeekFromDate data.bookingDate ∧
        data.startTime ≥ av.startTime ∧ data.endTime ≤ av.endTime)
    (hrange : data.startTime < data.endTime)
    (hR : R ∈ st.bookings) (hRstatus : R.status = BookingStatus.confirmed)
    (hids : ∀ b ∈ st.bookings, b.id = R.id → b = R)
    (honly : ∀ b ∈ st.bookings, b.itemId = data.itemId →
      b.bookingDate = data.bookingDate → b.status = BookingStatus.confirmed →
      conflictClauses b.startTime b.endTime data.startTime data.endTime = true →
      b = R) :
    (cancelBooking st R.id).1 =
      Except.ok { R with status := BookingStatus.cancelled } ∧
    ∃ bk, (createBooking env (cancelBooking st R.id).2 data).1 = Except.ok bk ∧
      bk.status = BookingStatus.confirmed := by
  have hfind : st.bookings.find? (fun b => decide (b.id = R.id)) = some R := by
    cases hf : st.bookings.find? (fun b => decide (b.id = R.id)) with
    | none =>
        exfalso
        have := List.find?_eq_none.mp hf R hR
        simp at this
    | some b₀ =>
        have hb₀ : b₀ = R :=
          hids b₀ (List.mem_of_find?_eq_some hf) (by simpa using List.find?_some hf)
        rw [hb₀]
  rcases cancelBooking_spec st R.id with ⟨heq, hf⟩ | ⟨b₀, hf, hst₀, heq⟩ | ⟨b₀, hf, hst₀, heq⟩
  · rw [hfind] at hf
    simp at hf
  · rw [hfind] at hf
    injection hf with hb₀
    rw [← hb₀, hRstatus] at hst₀
    exact absurd hst₀ (by decide)
  · rw [hfind] at hf
    injection hf with hb₀
    subst hb₀
    have hst₂ : (cancelBooking st R.id).2 =
        { bookings := st.bookings.map
            (fun c => if c.id = R.id then { c with status := BookingStatus.cancelled } else c),
          nextId := st.nextId } := by rw [heq]
    have hnone : findConflictingBookingDao (cancelBooking st R.id).2.bookings
        data.itemId data.bookingDate data.startTime data.endTime = none := by
      rw [hst₂, findConflictingBookingDao_eq_none_iff]
      intro b hb hbitem hbdate hbstatus
      obtain ⟨c, hc, hcf⟩ := List.mem_map.mp hb
      by_cases hcid : c.id = R.id
      · exfalso
        rw [← hcf] at hbstatus
        simp [hcid] at hbstatus
      · have hcb : c = b := by
          rw [← hcf]
          simp [hcid]
        subst hcb
        refine Bool.eq_false_iff.mpr (fun htrue => ?_)
        exact hcid (by rw [honly c hc hbitem hbdate hbstatus htrue])
    have heqok := createBooking_ok_intro env (cancelBooking st R.id).2 data item hit hbk
      ((isWithinAvailability_iff env data).mpr hav) hnone hrange
    exact ⟨by rw [heq], newBookingOf (cancelBooking st R.id).2 data, by rw [heqok], rfl⟩

/-- Witness for C7: cancel the 11:00–13:00 booking, then rebook Jane on the
identical interval. -/
theorem cancel_then_rebook_succeeds_witness :
    (cancelBooking stA bookingA.id).1 =
      Except.ok { bookingA with status := BookingStatus.cancelled } ∧
    ∃ bk, (createBooking envW (cancelBooking stA bookingA.id).2 dtoSame).1 =
        Except.ok bk ∧
      bk.status = BookingStatus.confirmed :=
  cancel_then_rebook_succeeds envW stA dtoSame bookingA itemX rfl rfl
    (by decide) (by decide) (by decide) rfl (by decide) (by decide)

/-- Membership in the weekday/active rule filter, spelled out. -/
lemma mem_dayAvailabilitiesOf (env : Env) (itemId : String) (w : DayOfWeek)
    (av : Availability) :
    av ∈ dayAvailabilitiesOf env itemId w ↔
      av ∈ env.rules ∧ av.itemId = itemId ∧ av.isActive = true ∧ av.dayOfWeek = w := by
  simp only [dayAvailabilitiesOf, findAvailabilitiesByItemIdDao, List.mem_filter,
    Bool.and_eq_true, decide_eq_true_eq]
  tauto

/-- Membership in the CONFIRMED bookings of an (itemId, date) key, spelled
out. -/
lemma mem_findBookingsByItemAndDateDao (bookings : List Booking) (itemId : String)
    (date : Nat) (b : Booking) :
    b ∈ findBookingsByItemAndDateDao bookings itemId date ↔
      b ∈ bookings ∧ b.itemId = itemId ∧ b.bookingDate = date ∧
        b.status = BookingStatus.confirmed := by
  simp only [findBookingsByItemAndDateDao, List.mem_filter, Bool.and_eq_true,
    decide_eq_true_eq]
  tauto

/-- Membership in the slot calculator's output: the window is one of the
inputs and no booking trips the inline test against it. -/
lemma mem_calculateAvailableSlots (A B : List Slot) (s : Slot) :
    s ∈ calculateAvailableSlots A B ↔
      s ∈ A ∧ ∀ b ∈ B,
        slotOverlapTest s.startTime s.endTime b.startTime b.endTime = false := by
  simp only [calculateAvailableSlots, List.mem_filter, Bool.not_eq_true',
    List.any_eq_false, Bool.not_eq_true]

/-- C8: on a bookable item, getAvailableSlots succeeds and reports as
availableSlots exactly the whole windows of active rules for the date's
weekday that no CONFIRMED booking of the (itemId, date) key overlaps under
half-open semantics (an overlapped window is omitted entirely, never split);
and when the weekday has zero active rules the response carries empty
availabilityRules, bookedSlots, and availableSlots instead of an error.
Interval well-formedness of stored rules and bookings is assumed, as enforced
at rule creation and by the booking pre-save hook. -/
theorem getAvailableSlots_whole_free_windows (env : Env) (st : St)
    (itemId : String) (date : Nat) (item : Item)
    (hit : findItemByIdDao env.items itemId = Except.ok item)
    (hbk : item.isBookable = true)
    (hrv : ∀ av ∈ env.rules, av.startTime < av.endTime)
    (hbv : ∀ b ∈ st.bookings, b.startTime < b.endTime) :
    ∃ resp, getAvailableSlots env st itemId date = Except.ok resp ∧
      (∀ s : Slot, s ∈ resp.availableSlots ↔
        ∃ av ∈ env.rules, av.itemId = itemId ∧ av.isActive = true ∧
          av.dayOfWeek = getDayOfWeekFromDate date ∧
          s.startTime = av.startTime ∧ s.endTime = av.endTime ∧
          ∀ b ∈ st.bookings, b.itemId = itemId → b.bookingDate = date →
            b.status = BookingStatus.confirmed →
            ¬ intervalsOverlap av.startTime av.endTime b.startTime b.endTime) ∧
      ((∀ av ∈ env.rules, av.itemId = itemId → av.isActive = true →
          av.dayOfWeek ≠ getDayOfWeekFromDate date) →
        resp.availabilityRules = [] ∧ resp.bookedSlots = [] ∧
          resp.availableSlots = []) := by
  cases hD : (dayAvailabilitiesOf env itemId (getDayOfWeekFromDate date)).isEmpty with
  | true =>
      have hDnil : dayAvailabilitiesOf env itemId (getDayOfWeekFromDate date) = [] :=
        List.isEmpty_iff.mp hD
      refine ⟨{ itemId := itemId, date := date,
                dayOfWeek := getDayOfWeekFromDate date,
                availabilityRules := [], bookedSlots := [], availableSlots := [] },
        ?_, ?_, fun _ => ⟨rfl, rfl, rfl⟩⟩
      · unfold getAvailableSlots
        rw [hit]
        simp [hbk, hD]
      · intro s
        refine iff_of_false (by simp) ?_
        rintro ⟨av, hmem, hitem, hact, hday, -⟩
        have hin : av ∈ dayAvailabilitiesOf env itemId (getDayOfWeekFromDate date) :=
          (mem_dayAvailabilitiesOf env itemId _ av).mpr ⟨hmem, hitem, hact, hday⟩
        rw [hDnil] at hin
        simp at hin
  | false =>
      refine ⟨{ itemId := itemId, date := date,
                dayOfWeek := getDayOfWeekFromDate date,
                availabilityRules :=
                  (dayAvailabilitiesOf env itemId (getDayOfWeekFromDate date)).map
                    (fun av => { startTime := av.startTime, endTime := av.endTime }),
                bookedSlots :=
                  (findBookingsByItemAndDateDao st.bookings itemId date).map
                    (fun b => { startTime := b.startTime, endTime := b.endTime,
                                customerName := b.customerName }),
                availableSlots := calculateAvailableSlots
                  ((dayAvailabilitiesOf env itemId (getDayOfWeekFromDate date)).map
                    (fun av => { startTime := av.startTime, endTime := av.endTime }))
                  ((findBookingsByItemAndDateDao st.bookings itemId date).map
                    (fun b => { startTime := b.startTime, endTime := b.endTime })) },
        ?_, ?_, ?_⟩
      · unfold getAvailableSlots
        rw [hit]
        simp [hbk, hD]
      · intro s
        rw [mem_calculateAvailableSlots]
        constructor
        · rintro ⟨hmemA, hall⟩
          obtain ⟨av, hav, havs⟩ := List.mem_map.mp hmemA
          obtain ⟨hmem, hitem, hact, hday⟩ := (mem_dayAvailabilitiesOf env itemId _ av).mp hav
          refine ⟨av, hmem, hitem, hact, hday, by rw [← havs], by rw [← havs], ?_⟩
          intro b hb hbitem hbdate hbstatus hov
          have hbmem : b ∈ findBookingsByItemAndDateDao st.bookings itemId date :=
            (mem_findBookingsByItemAndDateDao st.bookings itemId date b).mpr
              ⟨hb, hbitem, hbdate, hbstatus⟩
          have hslot := hall { startTime := b.startTime, endTime := b.endTime }
            (List.mem_map.mpr ⟨b, hbmem, rfl⟩)
          rw [← havs] at hslot
          have := (slotOverlapTest_iff (hrv av hmem) (hbv b hb)).mpr
            ⟨hov.1, hov.2⟩
          rw [hslot] at this
          exact Bool.false_ne_true this
        · rintro ⟨av, hmem, hitem, hact, hday, hss, hse, hfree⟩
          have havs : ({ startTime := av.startTime, endTime := av.endTime } : Slot) = s := by
            cases s
            simp_all
          refine ⟨List.mem_map.mpr ⟨av, (mem_dayAvailabilitiesOf env itemId _ av).mpr
            ⟨hmem, hitem, hact, hday⟩, havs⟩, ?_⟩
          intro bs hbs
          obtain ⟨b, hbmem, hbsb⟩ := List.mem_map.mp hbs
          obtain ⟨hb, hbitem, hbdate, hbstatus⟩ :=
            (mem_findBookingsByItemAndDateDao st.bookings itemId date b).mp hbmem
          refine Bool.eq_false_iff.mpr (fun htrue => ?_)
          rw [← hbsb, hss, hse] at htrue
          exact hfree b hb hbitem hbdate hbstatus
            ((slotOverlapTest_iff (hrv av hmem) (hbv b hb)).mp htrue)
      · intro hnone
        exfalso
        obtain ⟨av, hav⟩ := List.exists_mem_of_ne_nil
          (dayAvailabilitiesOf env itemId (getDayOfWeekFromDate date))
          (fun hnil => by rw [hnil] at hD; simp at hD)
        obtain ⟨hmem, hitem, hact, hday⟩ := (mem_dayAvailabilitiesOf env itemId _ av).mp hav
        exact hnone av hmem hitem hact hday

/-- Witness for C8: the Monday query against the store holding the
11:00–13:00 booking — the overlapped 09:00–17:00 window is reported by the
characterization as not free. -/
theorem getAvailableSlots_whole_free_windows_witness :
    ∃ resp, getAvailableSlots envW stA "x" 4 = Except.ok resp ∧
      (∀ s : Slot, s ∈ resp.availableSlots ↔
        ∃ av ∈ envW.rules, av.itemId = "x" ∧ av.isActive = true ∧
          av.dayOfWeek = getDayOfWeekFromDate 4 ∧
          s.startTime = av.startTime ∧ s.endTime = av.endTime ∧
          ∀ b ∈ stA.bookings, b.itemId = "x" → b.bookingDate = 4 →
            b.status = BookingStatus.confirmed →
            ¬ intervalsOverlap av.startTime av.endTime b.startTime b.endTime) ∧
      ((∀ av ∈ envW.rules, av.itemId = "x" → av.isActive = true →
          av.dayOfWeek ≠ getDayOfWeekFromDate 4) →
        resp.availabilityRules = [] ∧ resp.bookedSlots = [] ∧
          resp.availableSlots = []) :=
  getAvailableSlots_whole_free_windows envW stA "x" 4 itemX rfl rfl
    (by decide) (by decide)

/-- C9 counterexample: with the 11:00–13:00 booking CONFIRMED on the Monday,
the coordinator-level createBooking call with the inverted range 12:00–10:00
on the existing bookable item is not rejected by any InvalidRange failure
before the atomic phase: the conflict scan runs and the call fails with
SlotConflict naming 11:00–13:00, the store unchanged — the coordinator holds
no startTime < endTime re-validation. -/
theorem createBooking_no_coordinator_range_check :
    dtoInv.startTime ≥ dtoInv.endTime ∧
    createBooking envW stA dtoInv =
      (Except.error (BookingError.slotConflict 660 780), stA) :=
  ⟨by decide, by rfl⟩

/-- C9 amended: the coordinator checks NotBookable, then OutsideAvailability,
and performs no startTime < endTime re-validation of its own before the
atomic phase; a request with startTime >= endTime is rejected with the
distinct InvalidRange issue at input validation, before the coordinator and
any conflict check, and the only later enforcement is the persistence-layer
pre-save hook, which fires during the insert — after the conflict scan. -/
theorem invalidRange_checked_at_validation_and_presave (todayMidnight : Nat)
    (env : Env) (st : St) (data : CreateBookingDto)
    (h : data.startTime ≥ data.endTime) :
    ValidationIssue.invalidRange ∈ createBookingSchemaIssues todayMidnight data ∧
    (routeCreateBooking todayMidnight env st data).1 =
      RouteResult.validationFailed (createBookingSchemaIssues todayMidnight data) ∧
    (routeCreateBooking todayMidnight env st data).2 = st ∧
    (∀ item, findItemByIdDao env.items data.itemId = Except.ok item →
      item.isBookable = true → isWithinAvailability env data = true →
      findConflictingBookingDao st.bookings data.itemId data.bookingDate
        data.startTime data.endTime = none →
      (createBooking env st data).1 = Except.error BookingError.saveError) := by
  have hissues : createBookingSchemaIssues todayMidnight data =
      ValidationIssue.invalidRange ::
        (if data.bookingDate < todayMidnight then [ValidationIssue.pastDate] else []) := by
    simp [createBookingSchemaIssues, h]
  refine ⟨?_, ?_, ?_, ?_⟩
  · rw [hissues]
    exact List.mem_cons_self _ _
  · unfold routeCreateBooking
    rw [hissues]
  · unfold routeCreateBooking
    rw [hissues]
  · intro item hitem hbk hav hnone
    unfold createBooking createBookingDao
    rw [hitem]
    simp [hbk, hav, hnone, h]

/-- Witness for C9's amended claim: the inverted 12:00–10:00 request is
flagged InvalidRange by validation, and the coordinator run on the empty
store only fails at the pre-save hook. -/
theorem invalidRange_checked_at_validation_and_presave_witness :
    ValidationIssue.invalidRange ∈ createBookingSchemaIssues 10 dtoInv ∧
    (createBooking envW emptySt dtoInv).1 = Except.error BookingError.saveError :=
  ⟨(invalidRange_checked_at_validation_and_presave 10 envW emptySt dtoInv
      (by decide)).1,
   (invalidRange_checked_at_validation_and_presave 10 envW emptySt dtoInv
      (by decide)).2.2.2 itemX rfl rfl (by decide) rfl⟩

/-- C10: every createBooking request whose parsed bookingDate is strictly
earlier than the current day's midnight is rejected by input validation with
the 'Cannot book dates in the past' issue before the coordinator runs,
whatever the availability rules and stored reservations; the store is left
untouched. -/
theorem pastDate_rejected_at_validation (todayMidnight : Nat) (env : Env)
    (st : St) (data : CreateBookingDto)
    (h : data.bookingDate < todayMidnight) :
    ValidationIssue.pastDate ∈ createBookingSchemaIssues todayMidnight data ∧
    (routeCreateBooking todayMidnight env st data).1 =
      RouteResult.validationFailed (createBookingSchemaIssues todayMidnight data) ∧
    (routeCreateBooking todayMidnight env st data).2 = st := by
  have hmem : ValidationIssue.pastDate ∈ createBookingSchemaIssues todayMidnight data := by
    simp [createBookingSchemaIssues, h]
  have hne : createBookingSchemaIssues todayMidnight data ≠ [] := by
    intro hnil
    rw [hnil] at hmem
    simp at hmem
  cases hiss : createBookingSchemaIssues todayMidnight data with
  | nil => exact absurd hiss hne
  | cons a t =>
      rw [hiss] at hmem
      refine ⟨hmem, ?_, ?_⟩ <;> unfold routeCreateBooking <;> rw [hiss]

/-- Witness for C10: a Monday request issued after that Monday's midnight
has passed. -/
theorem pastDate_rejected_at_validation_witness :
    ValidationIssue.pastDate ∈ createBookingSchemaIssues 10 dtoJohn ∧
    (routeCreateBooking 10 envW emptySt dtoJohn).1 =
      RouteResult.validationFailed (createBookingSchemaIssues 10 dtoJohn) ∧
    (routeCreateBooking 10 envW emptySt dtoJohn).2 = emptySt :=
  pastDate_rejected_at_validation 10 envW emptySt dtoJohn (by decide)

end Guestara
